import Mathlib

/-!
Verification of the team-assignment core of the partnership app.

The embedding models the storage layer as explicit record lists and the
engine (`DatabaseStorage.assignUserToTeam`, `DatabaseStorage.ensureUserInTeam`,
`DatabaseStorage.createUser` in the source) as pure functions over them.
Fallible operations return `Except`; the transaction wrapper of `createUser`
is modelled by discarding the partial state on error (rollback).
-/

set_option maxRecDepth 100000

/-- A row of the `companies` table (the fields the engine reads):
`id`, and `group_size` (a JS number, modelled as `Int`). -/
structure Company where
  id : Nat
  groupSize : Int
deriving DecidableEq, Repr

/-- A row of the `users` table (the fields the engine reads): `id` and the
optional `company_id`.  The `users` list of a store is kept in `created_at`
order (insertion order), matching `orderBy(asc(users.createdAt))`. -/
structure UserRec where
  id : Nat
  companyId : Option Nat
deriving DecidableEq, Repr

/-- A row of the `partnerships` table (the fields the engine writes/reads):
`id`, `group_id`, `company_id`, `team_number`, `leader_id`, `status`. -/
structure Team where
  id : Nat
  groupId : String
  companyId : Nat
  teamNumber : Int
  leaderId : Nat
  status : String
deriving DecidableEq, Repr

/-- A row of the `partnership_members` table: the (partnership, user) pair.
The table's surrogate id and timestamp play no role in any claim; the
uniqueness constraint `unique_partnership_user` is on exactly this pair. -/
structure Member where
  partnershipId : Nat
  userId : Nat
deriving DecidableEq, Repr

/-- The record store: the four tables the engine touches, with `nextTeamId`
supplying fresh primary keys for team inserts.  Lists are kept in insertion
order, which is also `created_at` order. -/
structure DB where
  companies : List Company
  users : List UserRec
  teams : List Team
  members : List Member
  nextTeamId : Nat
deriving DecidableEq, Repr

/-- Storage-level error signal (a uniqueness-constraint violation). -/
inductive DbError where
  | uniqueViolation
deriving DecidableEq, Repr

/-- JavaScript `Array.prototype.findIndex` returns the index of the first
match and `-1` when there is none; `findIndexOpt` is the `Option`-valued
core of that. -/
def findIndexOpt (p : α → Bool) : List α → Option Nat
  | [] => none
  | a :: t => if p a then some 0 else (findIndexOpt p t).map (· + 1)

/-- JavaScript `findIndex`: first matching index, `-1` if absent. -/
def jsFindIndex (p : α → Bool) (l : List α) : Int :=
  match findIndexOpt p l with
  | some i => (i : Int)
  | none => -1

/-- The group identifier the source assigns to a newly created team:
`` `MAKECENTSGRO-T${teamNumber}` `` — a hard-coded prefix followed by the
team number; the company does not occur in it. -/
def groupIdFor (teamNumber : Int) : String :=
  "MAKECENTSGRO-T" ++ toString teamNumber

/-- Result of the JavaScript expression `Math.floor((p-1)/(G-1)) + 1`.
When `G - 1 = 0` the JS division yields `NaN` (for `p = 1`) or `+Infinity`
(for `p ≥ 2`); both compare `false` under `<`, which is all the engine does
with the value.  `nonfin` stands for that non-finite outcome.  (The engine
computes this only for a user present in the company's user list, so `p ≥ 1`
at every call site: `assignUserToTeam` runs inside the transaction that has
just inserted the user.)  For `G - 1 ≠ 0` the JS `Math.floor` of the exact
quotient is integer floor division, `Int.fdiv`. -/
inductive MemTeamNum where
  | fin (v : Int)
  | nonfin
deriving DecidableEq, Repr

/-- The source's `membershipTeamNumber = Math.floor((userPosition - 1) / (groupSize - 1)) + 1`. -/
def membershipTeamNumber (p G : Int) : MemTeamNum :=
  if G - 1 = 0 then .nonfin else .fin ((p - 1).fdiv (G - 1) + 1)

/-- The comparison `membershipTeamNumber < leadershipTeamNumber`:
`NaN`/`+Infinity` are never `<` a number. -/
def memTeamNumLt (m : MemTeamNum) (l : Int) : Bool :=
  match m with
  | .fin v => v < l
  | .nonfin => false

/-- The finite value of a membership team number (only read under a
`memTeamNumLt` guard, which rules out `nonfin`). -/
def memTeamNumVal (m : MemTeamNum) : Int :=
  match m with
  | .fin v => v
  | .nonfin => 0

/-- The raw membership insert, `db.insert(partnershipMembers).values(...)`,
under the `unique_partnership_user` constraint: fails iff the pair already
exists. -/
def insertMemberChecked (db : DB) (tid uid : Nat) : Except DbError DB :=
  if (⟨tid, uid⟩ : Member) ∈ db.members then .error .uniqueViolation
  else .ok { db with members := db.members ++ [⟨tid, uid⟩] }

/-- The membership insert as the source performs it: wrapped in
`try { ... } catch { console.log(...) }`, so a failed insert is a no-op. -/
def addMemberCaught (db : DB) (tid uid : Nat) : DB :=
  match insertMemberChecked db tid uid with
  | .ok db1 => db1
  | .error _ => db

/-- Embeds `DatabaseStorage.ensureUserInTeam` (storage.ts): select the team by
(company, team number); if absent, insert it with the hard-coded-prefix
group id, the given user as leader and status "filling"; then insert the
membership row, swallowing a uniqueness failure.  The `isLeader` argument is
accepted and ignored, exactly as in the source (the parameter is unused in
its body).  This variant models the run in which the team insert is accepted
by the store; `ensureUserInTeamChecked` below is the same control flow
against the store that enforces the partnerships-table constraints and is
the one to use for claims about store contents after several joins. -/
def ensureUserInTeam (db : DB) (userId : Nat) (teamNumber : Int) (companyId : Nat)
    (isLeader : Bool) : DB :=
  match db.teams.find? (fun t => t.companyId == companyId && t.teamNumber == teamNumber) with
  | some existingTeam => addMemberCaught db existingTeam.id userId
  | none =>
    let newTeam : Team :=
      { id := db.nextTeamId, groupId := groupIdFor teamNumber, companyId := companyId,
        teamNumber := teamNumber, leaderId := userId, status := "filling" }
    addMemberCaught
      { db with teams := db.teams ++ [newTeam], nextTeamId := db.nextTeamId + 1 }
      newTeam.id userId

/-- Embeds `DatabaseStorage.assignUserToTeam` (storage.ts): load the company (error
"Company not found" if absent), read `groupSize`, list the company's users in
creation order, compute `userPosition = findIndex(id) + 1`,
`leadershipTeamNumber = userPosition`,
`membershipTeamNumber = Math.floor((userPosition - 1)/(groupSize - 1)) + 1`;
ensure membership in the membership team when it is strictly smaller than the
leadership team; always ensure the leadership team. -/
def assignUserToTeam (db : DB) (userId companyId : Nat) : Except String DB :=
  match db.companies.find? (fun c => c.id == companyId) with
  | none => .error "Company not found"
  | some company =>
    let groupSize := company.groupSize
    let allUsers := db.users.filter (fun u => u.companyId == some companyId)
    let userPosition : Int := jsFindIndex (fun u => u.id == userId) allUsers + 1
    let leadershipTeamNumber := userPosition
    let mtn := membershipTeamNumber userPosition groupSize
    let db1 :=
      if memTeamNumLt mtn leadershipTeamNumber then
        ensureUserInTeam db userId (memTeamNumVal mtn) companyId false
      else db
    .ok (ensureUserInTeam db1 userId leadershipTeamNumber companyId true)

/-- Embeds `DatabaseStorage.createUser` (storage.ts): inside one transaction, insert
the user row, then, when the user has a company, run `assignUserToTeam`.
An error aborts the transaction: the `Except.error` result carries no store,
the caller keeps the pre-transaction one. -/
def createUser (db : DB) (u : UserRec) : Except String (DB × UserRec) :=
  let db1 : DB := { db with users := db.users ++ [u] }
  match u.companyId with
  | some cid =>
    match assignUserToTeam db1 u.id cid with
    | .error e => .error e
    | .ok db2 => .ok (db2, u)
  | none => .ok (db1, u)

/-- The transaction boundary seen from the caller: on success the new store,
on error a rollback to the old one. -/
def createUserRun (db : DB) (u : UserRec) : DB :=
  match createUser db u with
  | .ok p => p.1
  | .error _ => db

/-- A store holding one company (id 0) with the given configured team size
and nothing else. -/
def initDB (G : Nat) : DB :=
  ⟨[⟨0, (G : Int)⟩], [], [], [], 0⟩

/-- The i-th joining user of the simulated company (ids are 1-based join
positions). -/
def mkUser (i : Nat) : UserRec := ⟨i, some 0⟩

/-- N sequential joins of users 1..N into company 0 with team size G, with
every team insert accepted (the constraint-free store): this exhibits what
the `assignUserToTeam` formula computes per invocation.  Store contents the
program actually reaches are given by `simulateChecked`, which enforces the
partnerships-table constraints. -/
def simulate (G N : Nat) : DB :=
  (List.range N).foldl (fun db i => createUserRun db (mkUser (i + 1))) (initDB G)

/-- Member count of the team of a company with the given team number, as
`getTeamsByCompany` reports it (`memberCount`): the team row is looked up by
(company, team number), its membership rows counted. -/
def memberCountOfTeam (db : DB) (companyId : Nat) (n : Int) : Nat :=
  match db.teams.find? (fun t => t.companyId == companyId && t.teamNumber == n) with
  | some t => (db.members.filter (fun m => m.partnershipId == t.id)).length
  | none => 0

/-- Whether the user is recorded as a member of the company's team with the
given team number. -/
def isMemberOfTeam (db : DB) (companyId : Nat) (n : Int) (uid : Nat) : Bool :=
  match db.teams.find? (fun t => t.companyId == companyId && t.teamNumber == n) with
  | some t => (⟨t.id, uid⟩ : Member) ∈ db.members
  | none => false

/-- The leader recorded for the company's team with the given team number. -/
def leaderOfTeam (db : DB) (companyId : Nat) (n : Int) : Option Nat :=
  (db.teams.find? (fun t => t.companyId == companyId && t.teamNumber == n)).map
    (fun t => t.leaderId)


/-! ## Closed form of the sequential simulation -/

/-- The membership team number of join position `p` under team size `G`,
as a natural number (valid for `G ≥ 2`, where it agrees with the engine's
floor division). -/
def mtnNat (G p : Nat) : Nat := (p - 1) / (G - 1) + 1

/-- The team record the engine creates for team number `k` in the simulated
company: primary key `k - 1`, the hard-coded-prefix group id, leader `k`,
status "filling". -/
def mkTeam (k : Nat) : Team :=
  ⟨k - 1, groupIdFor (k : Int), 0, (k : Int), k, "filling"⟩

/-- The membership rows the join of user `p` appends: a row in the membership
team when `mtnNat G p < p`, then always a row in the leadership team `p`. -/
def memberRows (G p : Nat) : List Member :=
  (if mtnNat G p < p then [⟨mtnNat G p - 1, p⟩] else []) ++ [⟨p - 1, p⟩]

/-- Users 1..j in join order. -/
def usersList (j : Nat) : List UserRec :=
  (List.range j).map (fun i => mkUser (i + 1))

/-- Teams 1..j in creation order. -/
def teamsList (j : Nat) : List Team :=
  (List.range j).map (fun i => mkTeam (i + 1))

/-- All membership rows after j joins, in insertion order. -/
def membersList (G j : Nat) : List Member :=
  (List.range j).flatMap (fun i => memberRows G (i + 1))

/-- The store after j sequential joins with team size G, in closed form. -/
def closedForm (G j : Nat) : DB :=
  ⟨[⟨0, (G : Int)⟩], usersList j, teamsList j, membersList G j, j⟩

/-! ## The constraint-enforcing store (schema of part_003) -/

/-- Engine-level error: the "Company not found" throw, or a storage
uniqueness violation that the engine does not catch. -/
inductive EngineError where
  | notFound (msg : String)
  | db (e : DbError)
deriving DecidableEq, Repr

/-- The raw team insert, `db.insert(partnerships).values(...)`, under the constraints declared on the
`partnerships` table: unique `group_id`, unique (`company_id`, `team_number`),
the partial unique index on `company_id` where status = 'filling', and the
partial unique index on (`leader_id`, `company_id`) where status in
('filling', 'complete').  The insert fails iff a constraint is violated. -/
def insertTeamChecked (db : DB) (t : Team) : Except DbError DB :=
  if db.teams.any (fun t0 => t0.companyId == t.companyId && t0.teamNumber == t.teamNumber) then
    .error .uniqueViolation
  else if db.teams.any (fun t0 => t0.groupId == t.groupId) then
    .error .uniqueViolation
  else if t.status == "filling" &&
      db.teams.any (fun t0 => t0.companyId == t.companyId && t0.status == "filling") then
    .error .uniqueViolation
  else if (t.status == "filling" || t.status == "complete") &&
      db.teams.any (fun t0 => t0.leaderId == t.leaderId && t0.companyId == t.companyId &&
        (t0.status == "filling" || t0.status == "complete")) then
    .error .uniqueViolation
  else .ok { db with teams := db.teams ++ [t], nextTeamId := db.nextTeamId + 1 }

/-- Embeds `ensureUserInTeam` against the constraint-enforcing store.  The source
wraps only the membership insert in try/catch; the team insert is bare, so
a constraint failure there propagates to the caller. -/
def ensureUserInTeamChecked (db : DB) (userId : Nat) (teamNumber : Int) (companyId : Nat)
    (isLeader : Bool) : Except DbError DB :=
  match db.teams.find? (fun t => t.companyId == companyId && t.teamNumber == teamNumber) with
  | some existingTeam => .ok (addMemberCaught db existingTeam.id userId)
  | none =>
    let newTeam : Team :=
      { id := db.nextTeamId, groupId := groupIdFor teamNumber, companyId := companyId,
        teamNumber := teamNumber, leaderId := userId, status := "filling" }
    match insertTeamChecked db newTeam with
    | .error e => .error e
    | .ok db1 => .ok (addMemberCaught db1 newTeam.id userId)

/-- Embeds `assignUserToTeam` against the constraint-enforcing store (same control
flow as `assignUserToTeam`, with storage errors threaded out). -/
def assignUserToTeamChecked (db : DB) (userId companyId : Nat) : Except EngineError DB :=
  match db.companies.find? (fun c => c.id == companyId) with
  | none => .error (.notFound "Company not found")
  | some company =>
    let groupSize := company.groupSize
    let allUsers := db.users.filter (fun u => u.companyId == some companyId)
    let userPosition : Int := jsFindIndex (fun u => u.id == userId) allUsers + 1
    let leadershipTeamNumber := userPosition
    let mtn := membershipTeamNumber userPosition groupSize
    match (if memTeamNumLt mtn leadershipTeamNumber then
        ensureUserInTeamChecked db userId (memTeamNumVal mtn) companyId false
      else .ok db) with
    | .error e => .error (.db e)
    | .ok db1 =>
      match ensureUserInTeamChecked db1 userId leadershipTeamNumber companyId true with
      | .error e => .error (.db e)
      | .ok db2 => .ok db2

/-- Embeds `createUser` against the constraint-enforcing store. -/
def createUserChecked (db : DB) (u : UserRec) : Except EngineError DB :=
  let db1 : DB := { db with users := db.users ++ [u] }
  match u.companyId with
  | some cid => assignUserToTeamChecked db1 u.id cid
  | none => .ok db1

/-- The transaction boundary for the checked engine: rollback on error. -/
def createUserCheckedRun (db : DB) (u : UserRec) : DB :=
  match createUserChecked db u with
  | .ok db1 => db1
  | .error _ => db

/-- Stores reachable by engine operations (user joins) from a store that
holds companies but no users, teams or memberships. -/
inductive ReachableDB : DB → Prop where
  | init (companies : List Company) : ReachableDB ⟨companies, [], [], [], 0⟩
  | step (db : DB) (u : UserRec) : ReachableDB db → ReachableDB (createUserCheckedRun db u)

/-- At most one team per company has status "filling". -/
def AtMostOneFilling (db : DB) : Prop :=
  ∀ c : Nat, (db.teams.filter (fun t => t.companyId == c && t.status == "filling")).length ≤ 1

/-- Embeds `ensureUserInTeam` as executed by a run that races another assignment run:
`dbSelect` is the snapshot its select reads; by the time its insert executes,
the store is `dbInsert` (the other run commits in between).  The control flow
mirrors the source exactly: no try/catch around the team insert, try/catch
around the membership insert. -/
def ensureUserInTeamInterleaved (dbSelect dbInsert : DB) (userId : Nat) (teamNumber : Int)
    (companyId : Nat) (isLeader : Bool) : Except DbError DB :=
  match dbSelect.teams.find? (fun t => t.companyId == companyId && t.teamNumber == teamNumber) with
  | some existingTeam => .ok (addMemberCaught dbInsert existingTeam.id userId)
  | none =>
    let newTeam : Team :=
      { id := dbInsert.nextTeamId, groupId := groupIdFor teamNumber, companyId := companyId,
        teamNumber := teamNumber, leaderId := userId, status := "filling" }
    match insertTeamChecked dbInsert newTeam with
    | .error e => .error e
    | .ok db1 => .ok (addMemberCaught db1 newTeam.id userId)

/-- A store where a company with team size 1 (below the documented minimum 2)
already holds its first user row — the state `assignUserToTeam` sees right
after that user's insert. -/
def dbGroupSizeOne : DB := ⟨[⟨0, (1 : Int)⟩], [mkUser 1], [], [], 0⟩

/-- A store with two distinct companies (ids 0 and 1) and nothing else. -/
def dbTwoCompanies : DB := ⟨[⟨0, (4 : Int)⟩, ⟨1, (4 : Int)⟩], [], [], [], 0⟩

/-- The store an interleaved run's insert executes against: another assignment
run has just committed team number 7 of company 0. -/
def dbOtherRunWon : DB :=
  ⟨[⟨0, (4 : Int)⟩], [], [⟨0, groupIdFor 7, 0, 7, 99, "filling"⟩], [], 1⟩

/-- N sequential join attempts of users 1..N into company 0 with team size
G, against the constraint-enforcing store; a failed transaction rolls back
(including its user row). -/
def simulateChecked (G N : Nat) : DB :=
  (List.range N).foldl (fun db i => createUserCheckedRun db (mkUser (i + 1))) (initDB G)

/-- The store after the first successful join of company 0 under the
constraint-enforcing model: user 1, team 1 (status "filling", leader 1),
and its single membership row.  The engine never updates any team's status,
so this store keeps a filling team forever and the partial unique index
makes every later team insert for the company fail. -/
def stuckDB (G : Nat) : DB :=
  ⟨[⟨0, (G : Int)⟩], [mkUser 1], [mkTeam 1], [⟨0, 1⟩], 1⟩

theorem usersList_succ (j : Nat) :
    usersList (j + 1) = usersList j ++ [mkUser (j + 1)] := by
  simp [usersList, List.range_succ]

theorem teamsList_succ (j : Nat) :
    teamsList (j + 1) = teamsList j ++ [mkTeam (j + 1)] := by
  simp [teamsList, List.range_succ]

theorem membersList_succ (G j : Nat) :
    membersList G (j + 1) = membersList G j ++ memberRows G (j + 1) := by
  simp [membersList, List.range_succ]

theorem usersList_id_le (j : Nat) : ∀ x ∈ usersList j, x.id ≤ j := by
  intro x hx
  simp only [usersList, List.mem_map, List.mem_range] at hx
  obtain ⟨i, hi, rfl⟩ := hx
  simp [mkUser]
  omega

theorem usersList_filter (j : Nat) :
    (usersList j).filter (fun u => u.companyId == some 0) = usersList j := by
  rw [List.filter_eq_self]
  intro x hx
  simp only [usersList, List.mem_map, List.mem_range] at hx
  obtain ⟨i, _, rfl⟩ := hx
  rfl

theorem findIndexOpt_last {α : Type} (p : α → Bool) :
    ∀ (l : List α), (∀ x ∈ l, p x = false) → ∀ u, p u = true →
      findIndexOpt p (l ++ [u]) = some l.length := by
  intro l
  induction l with
  | nil => intro _ u hu; simp [findIndexOpt, hu]
  | cons a t ih =>
    intro hl u hu
    have ha : p a = false := hl a (by simp)
    show (if p a then some 0 else (findIndexOpt p (t ++ [u])).map (· + 1)) =
      some (t.length + 1)
    rw [ha, if_neg (by simp), ih (fun x hx => hl x (by simp [hx])) u hu]
    rfl

theorem findIndexOpt_usersList (j : Nat) :
    findIndexOpt (fun u => u.id == j + 1) (usersList (j + 1)) = some j := by
  rw [usersList_succ]
  have hlen : (usersList j).length = j := by simp [usersList]
  rw [findIndexOpt_last _ (usersList j)
    (fun x hx => by
      have := usersList_id_le j x hx
      simp only [beq_eq_false_iff_ne, ne_eq]
      omega)
    (mkUser (j + 1)) (by simp [mkUser])]
  rw [hlen]

theorem teamsList_find?_big (j n : Nat) (hn : j < n) :
    (teamsList j).find? (fun t => t.companyId == 0 && t.teamNumber == (n : Int)) = none := by
  rw [List.find?_eq_none]
  intro t ht
  simp only [teamsList, List.mem_map, List.mem_range] at ht
  obtain ⟨i, hi, rfl⟩ := ht
  simp only [mkTeam, Bool.not_eq_true, Bool.and_eq_false_iff]
  right
  simp only [beq_eq_false_iff_ne, ne_eq, Int.natCast_inj]
  omega

theorem teamsList_find?_eq (j n : Nat) (h1 : 1 ≤ n) (h2 : n ≤ j) :
    (teamsList j).find? (fun t => t.companyId == 0 && t.teamNumber == (n : Int)) =
      some (mkTeam n) := by
  induction j with
  | zero => omega
  | succ j ih =>
    rw [teamsList_succ, List.find?_append]
    by_cases hc : n ≤ j
    · rw [ih hc]
      rfl
    · have hn : n = j + 1 := by omega
      subst hn
      rw [teamsList_find?_big j (j + 1) (by omega)]
      simp [mkTeam]

theorem membersList_userId_le (G j : Nat) : ∀ x ∈ membersList G j, x.userId ≤ j := by
  intro x hx
  simp only [membersList, List.mem_flatMap, List.mem_range] at hx
  obtain ⟨i, hi, hx⟩ := hx
  have hid : x.userId = i + 1 := by
    simp only [memberRows, List.mem_append, List.mem_singleton] at hx
    rcases hx with h | h
    · split at h
      · simp only [List.mem_singleton] at h
        subst h; rfl
      · simp at h
    · subst h; rfl
  omega

theorem ensureUserInTeam_member_step (G j m : Nat) (h1 : 1 ≤ m) (h2 : m ≤ j)
    (ms : List Member) (hms : ∀ x ∈ ms, x.userId ≤ j) :
    ensureUserInTeam ⟨[⟨0, (G : Int)⟩], usersList (j + 1), teamsList j, ms, j⟩
      (j + 1) (m : Int) 0 false =
    ⟨[⟨0, (G : Int)⟩], usersList (j + 1), teamsList j, ms ++ [⟨m - 1, j + 1⟩], j⟩ := by
  have hfind := teamsList_find?_eq j m h1 h2
  have hnotmem : (⟨m - 1, j + 1⟩ : Member) ∉ ms := by
    intro h
    have := hms _ h
    simp at this
  simp only [ensureUserInTeam, hfind, addMemberCaught, insertMemberChecked, mkTeam]
  rw [if_neg hnotmem]

theorem ensureUserInTeam_leader_step (G j : Nat) (ms : List Member)
    (hms : (⟨j, j + 1⟩ : Member) ∉ ms) :
    ensureUserInTeam ⟨[⟨0, (G : Int)⟩], usersList (j + 1), teamsList j, ms, j⟩
      (j + 1) ((j + 1 : Nat) : Int) 0 true =
    ⟨[⟨0, (G : Int)⟩], usersList (j + 1), teamsList (j + 1), ms ++ [⟨j, j + 1⟩], j + 1⟩ := by
  have hfind := teamsList_find?_big j (j + 1) (by omega)
  simp only [ensureUserInTeam, hfind, addMemberCaught, insertMemberChecked]
  rw [if_neg hms, teamsList_succ]
  simp [mkTeam]

theorem assignUserToTeam_mid (G j : Nat) (hG : 2 ≤ G) :
    assignUserToTeam ⟨[⟨0, (G : Int)⟩], usersList (j + 1), teamsList j, membersList G j, j⟩
      (j + 1) 0 =
    .ok ⟨[⟨0, (G : Int)⟩], usersList (j + 1), teamsList (j + 1), membersList G (j + 1), j + 1⟩ := by
  have hC : List.find? (fun c => c.id == 0) [(⟨0, (G : Int)⟩ : Company)] =
      some ⟨0, (G : Int)⟩ := rfl
  have hfi : jsFindIndex (fun u => u.id == j + 1)
      (((⟨[⟨0, (G : Int)⟩], usersList (j + 1), teamsList j, membersList G j, j⟩ :
        DB).users).filter (fun u => u.companyId == some 0)) = (j : Int) := by
    show jsFindIndex _ ((usersList (j + 1)).filter fun u => u.companyId == some 0) = _
    rw [usersList_filter, jsFindIndex, findIndexOpt_usersList]
  have hG1 : ¬ ((G : Int) - 1 = 0) := by omega
  have hsub : ((G : Int) - 1) = ((G - 1 : Nat) : Int) := by omega
  have hmtn : membershipTeamNumber ((j : Int) + 1) ((G : Int)) =
      .fin ((mtnNat G (j + 1) : Nat) : Int) := by
    rw [membershipTeamNumber, if_neg hG1]
    have h1 : ((j : Int) + 1 - 1) = (j : Int) := by ring
    rw [h1, hsub, ← Int.ofNat_fdiv]
    show MemTeamNum.fin _ = _
    rw [MemTeamNum.fin.injEq]
    rw [mtnNat]
    push_cast
    omega
  simp only [assignUserToTeam, hC, hfi, hmtn]
  have hcast : ((j + 1 : Nat) : Int) = (j : Int) + 1 := by push_cast; ring
  by_cases hm : mtnNat G (j + 1) < j + 1
  · have hlt : memTeamNumLt (.fin ((mtnNat G (j + 1) : Nat) : Int)) ((j : Int) + 1) = true := by
      simp only [memTeamNumLt]
      rw [← hcast]
      simp only [decide_eq_true_eq]
      exact_mod_cast hm
    rw [hlt]
    have hm1 : 1 ≤ mtnNat G (j + 1) := by rw [mtnNat]; exact Nat.le_add_left 1 _
    have hm2 : mtnNat G (j + 1) ≤ j := by omega
    simp only [if_true, memTeamNumVal]
    rw [ensureUserInTeam_member_step G j (mtnNat G (j + 1)) hm1 hm2
      (membersList G j) (membersList_userId_le G j)]
    rw [← hcast]
    rw [ensureUserInTeam_leader_step]
    · rw [membersList_succ, memberRows, if_pos hm]
      simp
    · intro h
      rcases List.mem_append.mp h with h | h
      · have := membersList_userId_le G j _ h
        simp at this
      · simp only [List.mem_singleton, Member.mk.injEq] at h
        omega
  · have hlt : memTeamNumLt (.fin ((mtnNat G (j + 1) : Nat) : Int)) ((j : Int) + 1) = false := by
      simp only [memTeamNumLt]
      rw [← hcast]
      simp only [decide_eq_false_iff_not]
      intro h
      exact hm (by exact_mod_cast h)
    rw [hlt]
    simp only [Bool.false_eq_true, if_false]
    rw [← hcast]
    rw [ensureUserInTeam_leader_step]
    · rw [membersList_succ, memberRows, if_neg hm]
      simp
    · intro h
      have := membersList_userId_le G j _ h
      simp at this

theorem createUser_closedForm (G : Nat) (hG : 2 ≤ G) (j : Nat) :
    createUser (closedForm G j) (mkUser (j + 1)) =
      .ok (closedForm G (j + 1), mkUser (j + 1)) := by
  have hmid : ({ closedForm G j with
      users := (closedForm G j).users ++ [mkUser (j + 1)] } : DB) =
      ⟨[⟨0, (G : Int)⟩], usersList (j + 1), teamsList j, membersList G j, j⟩ := by
    simp [closedForm, usersList_succ]
  simp only [createUser, show (mkUser (j + 1)).companyId = some 0 from rfl,
    show (mkUser (j + 1)).id = j + 1 from rfl]
  rw [hmid, assignUserToTeam_mid G j hG]
  rfl

theorem simulate_succ (G j : Nat) :
    simulate G (j + 1) = createUserRun (simulate G j) (mkUser (j + 1)) := by
  simp [simulate, List.range_succ]

theorem simulate_eq_closedForm (G : Nat) (hG : 2 ≤ G) : ∀ N, simulate G N = closedForm G N := by
  intro N
  induction N with
  | zero => simp [simulate, closedForm, initDB, usersList, teamsList, membersList]
  | succ j ih =>
    rw [simulate_succ, ih, createUserRun, createUser_closedForm G hG j]

theorem addMemberCaught_teams (db : DB) (tid uid : Nat) :
    (addMemberCaught db tid uid).teams = db.teams := by
  by_cases h : (⟨tid, uid⟩ : Member) ∈ db.members
  · simp [addMemberCaught, insertMemberChecked, h]
  · simp [addMemberCaught, insertMemberChecked, h]

theorem atMostOneFilling_of_teams_eq {db db' : DB} (h : db'.teams = db.teams)
    (hinv : AtMostOneFilling db) : AtMostOneFilling db' := by
  intro c
  rw [h]
  exact hinv c

theorem insertTeamChecked_filling_preserves (db : DB) (t : Team) (db' : DB)
    (ht : t.status = "filling") (hok : insertTeamChecked db t = .ok db')
    (hinv : AtMostOneFilling db) : AtMostOneFilling db' := by
  unfold insertTeamChecked at hok
  split_ifs at hok with h1 h2 h3 h4
  injection hok with hok
  subst hok
  intro c
  show (List.filter _ (db.teams ++ [t])).length ≤ 1
  rw [List.filter_append, List.length_append]
  by_cases hc : t.companyId = c
  · have hany : db.teams.any (fun t0 => t0.companyId == t.companyId &&
        t0.status == "filling") = false := by
      rcases Bool.and_eq_false_iff.mp (Bool.not_eq_true _ |>.mp h3) with h | h
      · simp [ht] at h
      · exact h
    have hnil : db.teams.filter (fun t0 => t0.companyId == c && t0.status == "filling") = [] := by
      rw [List.filter_eq_nil_iff]
      intro t0 ht0
      have := List.any_eq_false.mp hany t0 ht0
      rw [← hc]
      exact this
    rw [hnil]
    simpa using (List.length_filter_le _ [t]).trans (by simp)
  · have : List.filter (fun t0 => t0.companyId == c && t0.status == "filling") [t] = [] := by
      simp [hc]
    rw [this]
    simpa using hinv c

theorem ensureUserInTeamChecked_preserves (db : DB) (userId : Nat) (n : Int)
    (companyId : Nat) (isL : Bool) (db' : DB)
    (hok : ensureUserInTeamChecked db userId n companyId isL = .ok db')
    (hinv : AtMostOneFilling db) : AtMostOneFilling db' := by
  unfold ensureUserInTeamChecked at hok
  split at hok
  · injection hok with hok
    subst hok
    exact atMostOneFilling_of_teams_eq (addMemberCaught_teams ..) hinv
  · dsimp only at hok
    split at hok
    · exact absurd hok (by simp)
    · injection hok with hok
      subst hok
      rename_i db1 heq
      refine atMostOneFilling_of_teams_eq (addMemberCaught_teams ..) ?_
      exact insertTeamChecked_filling_preserves db _ db1 rfl heq hinv

theorem assignUserToTeamChecked_preserves (db : DB) (uid cid : Nat) (db' : DB)
    (hok : assignUserToTeamChecked db uid cid = .ok db')
    (hinv : AtMostOneFilling db) : AtMostOneFilling db' := by
  unfold assignUserToTeamChecked at hok
  split at hok
  · exact absurd hok (by simp)
  · dsimp only at hok
    split at hok
    · exact absurd hok (by simp)
    · rename_i db1 heq1
      split at hok
      · exact absurd hok (by simp)
      · rename_i db2 heq2
        injection hok with hok
        subst hok
        have hinv1 : AtMostOneFilling db1 := by
          split at heq1
          · exact ensureUserInTeamChecked_preserves _ _ _ _ _ _ heq1 hinv
          · injection heq1 with heq1
            subst heq1
            exact hinv
        exact ensureUserInTeamChecked_preserves _ _ _ _ _ _ heq2 hinv1

theorem createUserChecked_preserves (db : DB) (u : UserRec) (db' : DB)
    (hok : createUserChecked db u = .ok db')
    (hinv : AtMostOneFilling db) : AtMostOneFilling db' := by
  unfold createUserChecked at hok
  have hmid : AtMostOneFilling ({ db with users := db.users ++ [u] } : DB) :=
    atMostOneFilling_of_teams_eq rfl hinv
  split at hok
  · exact assignUserToTeamChecked_preserves _ _ _ _ hok hmid
  · injection hok with hok
    subst hok
    exact hmid

/-! ## Claim theorems -/

/-- C1: for a user at 1-based join position `i + 1` (the first matching index
`i` in the company's users ordered by creation time) in a company with
configured team size `G ≥ 2`, `assignUserToTeam` computes
`leadershipTeamNumber = i + 1` and
`membershipTeamNumber = (i + 1 - 1) / (G - 1) + 1 = i / (G - 1) + 1`
(floor division), performs the member-ensure for team
`membershipTeamNumber` exactly when `membershipTeamNumber <
leadershipTeamNumber`, and always performs the leader-ensure for team
`leadershipTeamNumber`. -/
theorem assignUserToTeam_position_formula (db : DB) (userId companyId : Nat)
    (company : Company) (G i : Nat)
    (hc : db.companies.find? (fun c => c.id == companyId) = some company)
    (hGs : company.groupSize = (G : Int)) (hG : 2 ≤ G)
    (hp : findIndexOpt (fun u => u.id == userId)
      (db.users.filter (fun u => u.companyId == some companyId)) = some i) :
    assignUserToTeam db userId companyId =
      .ok (ensureUserInTeam
            (if i / (G - 1) + 1 < i + 1 then
              ensureUserInTeam db userId ((i / (G - 1) + 1 : Nat) : Int) companyId false
            else db)
            userId ((i + 1 : Nat) : Int) companyId true) := by
  have hfi : jsFindIndex (fun u => u.id == userId)
      (db.users.filter (fun u => u.companyId == some companyId)) = (i : Int) := by
    rw [jsFindIndex, hp]
  have hG1 : ¬ (company.groupSize - 1 = 0) := by rw [hGs]; omega
  have hsub : company.groupSize - 1 = ((G - 1 : Nat) : Int) := by rw [hGs]; omega
  have hmtn : membershipTeamNumber ((i : Int) + 1) company.groupSize =
      .fin ((i / (G - 1) + 1 : Nat) : Int) := by
    rw [membershipTeamNumber, if_neg hG1]
    have h1 : ((i : Int) + 1 - 1) = (i : Int) := by ring
    rw [h1, hsub, ← Int.ofNat_fdiv, MemTeamNum.fin.injEq]
    push_cast
    ring
  simp only [assignUserToTeam, hc, hfi, hmtn]
  have hcast : ((i + 1 : Nat) : Int) = (i : Int) + 1 := by push_cast; ring
  by_cases hm : i / (G - 1) + 1 < i + 1
  · have hlt : memTeamNumLt (.fin ((i / (G - 1) + 1 : Nat) : Int)) ((i : Int) + 1) = true := by
      simp only [memTeamNumLt, ← hcast, decide_eq_true_eq]
      exact_mod_cast hm
    rw [hlt, if_pos hm]
    simp only [if_true, memTeamNumVal, hcast]
  · have hlt : memTeamNumLt (.fin ((i / (G - 1) + 1 : Nat) : Int)) ((i : Int) + 1) = false := by
      simp only [memTeamNumLt, ← hcast, decide_eq_false_iff_not]
      intro h
      exact hm (by exact_mod_cast h)
    rw [hlt, if_neg hm]
    simp only [Bool.false_eq_true, if_false, hcast]

/-- Witness for C1 at a concrete store: company 0 with team size 4, its only
user (id 1, hence join index 0), for whom the member-ensure is skipped
(membership team 1 is not below leadership team 1). -/
theorem assignUserToTeam_position_formula_witness :
    assignUserToTeam ⟨[⟨0, (4 : Int)⟩], [mkUser 1], [], [], 0⟩ 1 0 =
      .ok (ensureUserInTeam
            (if 0 / (4 - 1) + 1 < 0 + 1 then
              ensureUserInTeam ⟨[⟨0, (4 : Int)⟩], [mkUser 1], [], [], 0⟩ 1
                ((0 / (4 - 1) + 1 : Nat) : Int) 0 false
            else ⟨[⟨0, (4 : Int)⟩], [mkUser 1], [], [], 0⟩)
            1 ((0 + 1 : Nat) : Int) 0 true) :=
  assignUserToTeam_position_formula ⟨[⟨0, (4 : Int)⟩], [mkUser 1], [], [], 0⟩ 1 0
    ⟨0, (4 : Int)⟩ 4 0 rfl (by norm_num) (by norm_num) rfl

/-- C4: every store reachable by engine operations (user joins) from a
companies-only store satisfies the invariant: at most one team per company
has status "filling".  The engine creates teams only with status "filling";
the storage layer's partial unique index rejects a second filling team for
the same company, and the rejected transaction rolls back. -/
theorem at_most_one_filling_reachable (db : DB) (h : ReachableDB db) :
    AtMostOneFilling db := by
  induction h with
  | init cs => intro c; simp
  | step db u hr ih =>
    show AtMostOneFilling (createUserCheckedRun db u)
    unfold createUserCheckedRun
    split
    · rename_i db1 heq
      exact createUserChecked_preserves db u db1 heq ih
    · exact ih

/-- Witness for C4 at the empty reachable store. -/
theorem at_most_one_filling_reachable_witness :
    AtMostOneFilling ⟨[], [], [], [], 0⟩ :=
  at_most_one_filling_reachable _ (ReachableDB.init [])

/-- C5 (code evaluated at the failing schedule): this run's select saw no
team (company 0, number 7); another assignment run committed that team
before this run's insert; the insert fails with the uniqueness conflict and
`ensureUserInTeam` propagates the error to the caller — the source has no
try/catch around the team insert and performs no re-read. -/
theorem team_insert_conflict_propagates :
    ensureUserInTeamInterleaved (initDB 4) dbOtherRunWon 1 7 0 true =
      .error .uniqueViolation := rfl

/-- C6: the membership ensure is idempotent: a second invocation for the
same (team, user) pair is a no-op; a pair not present before gains exactly
one row; and when the pair is already present, the underlying insert fails
with the uniqueness violation but the operation treats it as success,
returning the store unchanged. -/
theorem ensure_membership_idempotent (db : DB) (tid uid : Nat) :
    addMemberCaught (addMemberCaught db tid uid) tid uid = addMemberCaught db tid uid ∧
    ((⟨tid, uid⟩ : Member) ∉ db.members →
      ((addMemberCaught db tid uid).members.filter
        (fun m => m == (⟨tid, uid⟩ : Member))).length = 1) ∧
    ((⟨tid, uid⟩ : Member) ∈ db.members →
      insertMemberChecked db tid uid = .error .uniqueViolation ∧
      addMemberCaught db tid uid = db) := by
  by_cases h : (⟨tid, uid⟩ : Member) ∈ db.members
  · refine ⟨?_, fun hn => absurd h hn, fun _ => ⟨?_, ?_⟩⟩
    · simp [addMemberCaught, insertMemberChecked, h]
    · simp [insertMemberChecked, h]
    · simp [addMemberCaught, insertMemberChecked, h]
  · have hadd : addMemberCaught db tid uid =
        { db with members := db.members ++ [⟨tid, uid⟩] } := by
      simp [addMemberCaught, insertMemberChecked, h]
    have hmem2 : (⟨tid, uid⟩ : Member) ∈
        ({ db with members := db.members ++ [⟨tid, uid⟩] } : DB).members := by
      simp
    refine ⟨?_, fun _ => ?_, fun hmem => absurd hmem h⟩
    · rw [hadd]
      simp [addMemberCaught, insertMemberChecked, hmem2]
    · rw [hadd]
      show ((db.members ++ [(⟨tid, uid⟩ : Member)]).filter (fun m => m == (⟨tid, uid⟩ : Member))).length = 1
      rw [List.filter_append]
      have hnil : db.members.filter (fun m => m == (⟨tid, uid⟩ : Member)) = [] := by
        rw [List.filter_eq_nil_iff]
        intro a ha
        simp only [beq_iff_eq]
        intro heq
        exact h (heq ▸ ha)
      rw [hnil]
      simp

/-- Witness for C6 at the empty store and pair (0, 1). -/
theorem ensure_membership_idempotent_witness :
    (addMemberCaught (addMemberCaught ⟨[], [], [], [], 0⟩ 0 1) 0 1 =
      addMemberCaught ⟨[], [], [], [], 0⟩ 0 1) ∧
    ((addMemberCaught ⟨[], [], [], [], 0⟩ 0 1).members.filter
      (fun m => m == (⟨0, 1⟩ : Member))).length = 1 :=
  ⟨(ensure_membership_idempotent ⟨[], [], [], [], 0⟩ 0 1).1,
   (ensure_membership_idempotent ⟨[], [], [], [], 0⟩ 0 1).2.1 (by decide)⟩

/-- C7: with a company reference that matches no company row, `createUser`
fails with "Company not found" and the transaction leaves the store exactly
as it was: no user, team or membership row persists. -/
theorem createUser_company_not_found (db : DB) (u : UserRec) (cid : Nat)
    (hu : u.companyId = some cid)
    (hc : db.companies.find? (fun c => c.id == cid) = none) :
    createUser db u = .error "Company not found" ∧ createUserRun db u = db := by
  have h1 : createUser db u = .error "Company not found" := by
    simp only [createUser, hu]
    have hc' : ({ db with users := db.users ++ [u] } : DB).companies.find?
        (fun c => c.id == cid) = none := hc
    simp only [assignUserToTeam, hc']
  exact ⟨h1, by simp [createUserRun, h1]⟩

/-- Witness for C7: the empty store and a user referencing company 0. -/
theorem createUser_company_not_found_witness :
    createUser ⟨[], [], [], [], 0⟩ ⟨1, some 0⟩ = .error "Company not found" ∧
    createUserRun ⟨[], [], [], [], 0⟩ ⟨1, some 0⟩ = ⟨[], [], [], [], 0⟩ :=
  createUser_company_not_found ⟨[], [], [], [], 0⟩ ⟨1, some 0⟩ 0 rfl rfl

/-- C8 (code evaluated at the failing input): with configured team size 1 —
below the documented minimum 2 — `assignUserToTeam` raises no error: the
zero-divisor division produces the non-finite JS value, the member step is
silently skipped, and the leadership assignment succeeds.  There is no
guard and no fatal configuration error. -/
theorem group_size_one_no_guard :
    assignUserToTeam dbGroupSizeOne 1 0 =
      .ok ⟨[⟨0, (1 : Int)⟩], [mkUser 1],
           [⟨0, groupIdFor 1, 0, 1, 1, "filling"⟩], [⟨0, 1⟩], 1⟩ := rfl

/-- C9 (code evaluated at the failing input): creating team number 1 for
company 0 and for the distinct company 1 assigns the identical group
identifier "MAKECENTSGRO-T1" — the identifier is derived from the team
number alone, never from the company. -/
theorem group_identifier_ignores_company :
    (ensureUserInTeam dbTwoCompanies 1 1 0 true).teams.map (fun t => t.groupId) =
      (ensureUserInTeam dbTwoCompanies 2 1 1 true).teams.map (fun t => t.groupId) ∧
    (ensureUserInTeam dbTwoCompanies 1 1 0 true).teams.map (fun t => t.groupId) =
      ["MAKECENTSGRO-T1"] := ⟨rfl, rfl⟩

/-- C10: in every simulated store, every team's leader also appears in that
team's member list (the leader-ensure always inserts the (team, leader)
membership row), and the team's number equals its leader's join position. -/
theorem leader_is_member (G N : Nat) (hG : 2 ≤ G) :
    ∀ t ∈ (simulate G N).teams,
      (⟨t.id, t.leaderId⟩ : Member) ∈ (simulate G N).members ∧
      t.teamNumber = (t.leaderId : Int) := by
  rw [simulate_eq_closedForm G hG N]
  intro t ht
  have ht2 : t ∈ teamsList N := ht
  simp only [teamsList, List.mem_map, List.mem_range] at ht2
  obtain ⟨i, hi, rfl⟩ := ht2
  constructor
  · show (⟨i + 1 - 1, i + 1⟩ : Member) ∈ membersList G N
    simp only [Nat.add_sub_cancel]
    refine List.mem_flatMap.mpr ⟨i, List.mem_range.mpr hi, ?_⟩
    simp [memberRows]
  · rfl

/-- Witness for C10: in the store after one join with G = 2, the single
team's leader is recorded as its member. -/
theorem leader_is_member_witness :
    (⟨(mkTeam 1).id, (mkTeam 1).leaderId⟩ : Member) ∈ (simulate 2 1).members ∧
    (mkTeam 1).teamNumber = ((mkTeam 1).leaderId : Int) :=
  leader_is_member 2 1 (by norm_num) (mkTeam 1) (by decide)

theorem ensureChecked_team1 (cs : List Company) (us : List UserRec) (ms : List Member)
    (n uid : Nat) (lead : Bool) :
    ensureUserInTeamChecked ⟨cs, us, [mkTeam 1], ms, n⟩ uid (((1 : Nat)) : Int) 0 lead =
      .ok (addMemberCaught ⟨cs, us, [mkTeam 1], ms, n⟩ 0 uid) := rfl

theorem ensureChecked_team2_conflict (cs : List Company) (us : List UserRec) (ms : List Member)
    (n uid : Nat) (lead : Bool) :
    ensureUserInTeamChecked ⟨cs, us, [mkTeam 1], ms, n⟩ uid (((2 : Nat)) : Int) 0 lead =
      .error .uniqueViolation := rfl

theorem addMemberCaught_fresh (cs : List Company) (us : List UserRec) (ts : List Team)
    (n i : Nat) (hi : ¬ (i = 1)) :
    addMemberCaught ⟨cs, us, ts, [⟨0, 1⟩], n⟩ 0 i = ⟨cs, us, ts, [⟨0, 1⟩, ⟨0, i⟩], n⟩ := by
  have hmem : ¬ ((⟨0, i⟩ : Member) ∈ ([⟨0, 1⟩] : List Member)) := by
    simp only [List.mem_singleton, Member.mk.injEq, not_and]
    intro _
    exact hi
  simp [addMemberCaught, insertMemberChecked, hmem]
  rw [if_neg hi]

theorem createUserChecked_first (G : Nat) (hG : 2 ≤ G) :
    createUserChecked (initDB G) (mkUser 1) = .ok (stuckDB G) := by
  have hG1 : ¬ ((G : Int) - 1 = 0) := by omega
  have hC : List.find? (fun c => c.id == 0) [(⟨0, (G : Int)⟩ : Company)] =
      some ⟨0, (G : Int)⟩ := rfl
  have hfi : jsFindIndex (fun u => u.id == 1)
      (List.filter (fun u => u.companyId == some 0) [mkUser 1]) = ((0 : Nat) : Int) := rfl
  have hmtn : membershipTeamNumber (((0 : Nat) : Int) + 1) ((G : Int)) = .fin 1 := by
    rw [membershipTeamNumber, if_neg hG1, MemTeamNum.fin.injEq]
    have h1 : (((0 : Nat) : Int) + 1 - 1) = 0 := by norm_num
    rw [h1, Int.zero_fdiv]
    norm_num
  have hlt : memTeamNumLt (.fin 1) (((0 : Nat) : Int) + 1) = false := by
    simp [memTeamNumLt]
  have hcast : ((0 : Nat) : Int) + 1 = ((1 : Nat) : Int) := by norm_num
  have hens : ensureUserInTeamChecked ⟨[⟨0, (G : Int)⟩], [mkUser 1], [], [], 0⟩ 1
      (((1 : Nat)) : Int) 0 true = .ok (stuckDB G) := rfl
  show assignUserToTeamChecked ⟨[⟨0, (G : Int)⟩], [mkUser 1], [], [], 0⟩ 1 0 = .ok (stuckDB G)
  simp only [assignUserToTeamChecked, hC, hfi, hmtn, hlt, Bool.false_eq_true, if_false]
  rw [hcast, hens]

theorem createUserChecked_stuck (G i : Nat) (hG : 2 ≤ G) (hi : 2 ≤ i) :
    createUserChecked (stuckDB G) (mkUser i) = .error (.db .uniqueViolation) := by
  have hG1 : ¬ ((G : Int) - 1 = 0) := by omega
  have hC : List.find? (fun c => c.id == 0) [(⟨0, (G : Int)⟩ : Company)] =
      some ⟨0, (G : Int)⟩ := rfl
  have hne1 : ((1 : Nat) == i) = false := by
    simp only [beq_eq_false_iff_ne, ne_eq]
    omega
  have hfio : findIndexOpt (fun u => u.id == i) [mkUser 1, mkUser i] = some 1 := by
    simp [findIndexOpt, mkUser, hne1]
  have hfi : jsFindIndex (fun u => u.id == i)
      (List.filter (fun u => u.companyId == some 0) [mkUser 1, mkUser i]) =
      ((1 : Nat) : Int) := by
    rw [show List.filter (fun u => u.companyId == some 0) [mkUser 1, mkUser i] =
        [mkUser 1, mkUser i] from rfl, jsFindIndex, hfio]
  have hmtn : membershipTeamNumber (((1 : Nat) : Int) + 1) ((G : Int)) =
      .fin (((1 / (G - 1) : Nat) : Int) + 1) := by
    rw [membershipTeamNumber, if_neg hG1, MemTeamNum.fin.injEq]
    have h1 : (((1 : Nat) : Int) + 1 - 1) = ((1 : Nat) : Int) := by ring
    have hsub : ((G : Int) - 1) = ((G - 1 : Nat) : Int) := by omega
    rw [h1, hsub, ← Int.ofNat_fdiv]
  have hcast : ((1 : Nat) : Int) + 1 = ((2 : Nat) : Int) := by norm_num
  show assignUserToTeamChecked
      ⟨[⟨0, (G : Int)⟩], [mkUser 1, mkUser i], [mkTeam 1], [⟨0, 1⟩], 1⟩ i 0 =
      .error (.db .uniqueViolation)
  simp only [assignUserToTeamChecked, hC, hfi, hmtn]
  by_cases hG2 : G = 2
  · subst hG2
    have hlt : memTeamNumLt (.fin (((1 / (2 - 1) : Nat) : Int) + 1))
        (((1 : Nat) : Int) + 1) = false := by
      simp [memTeamNumLt]
    rw [hlt]
    simp only [Bool.false_eq_true, if_false]
    rw [hcast, ensureChecked_team2_conflict]
  · have hdiv : 1 / (G - 1) = 0 := Nat.div_eq_of_lt (by omega)
    rw [hdiv]
    have hlt : memTeamNumLt (.fin (((0 : Nat) : Int) + 1)) (((1 : Nat) : Int) + 1) = true := by
      simp [memTeamNumLt]
    rw [hlt]
    simp only [if_true, memTeamNumVal]
    have hcast01 : ((0 : Nat) : Int) + 1 = ((1 : Nat) : Int) := by norm_num
    rw [hcast01, ensureChecked_team1]
    dsimp only
    rw [addMemberCaught_fresh _ _ _ _ _ (by omega)]
    rw [hcast, ensureChecked_team2_conflict]

theorem simulateChecked_succ (G j : Nat) :
    simulateChecked G (j + 1) =
      createUserCheckedRun (simulateChecked G j) (mkUser (j + 1)) := by
  simp [simulateChecked, List.range_succ]

/-- C2 counterexample, over the constraint-enforcing store: with G = 4,
after 2 sequential join attempts there is no team 2 at all (so the leader of
team 2 is not the 2nd joiner), and after 5 attempts team 1 still has exactly
1 member and user 1 is the only user row — the joins after the first
aborted on the filling-index conflict and rolled back.  No team ever
accumulates G members. -/
theorem team_fill_counterexample :
    leaderOfTeam (simulateChecked 4 2) 0 2 = none ∧
    memberCountOfTeam (simulateChecked 4 5) 0 1 = 1 ∧
    (simulateChecked 4 5).users = [mkUser 1] :=
  ⟨by decide, by decide, by decide⟩

/-- C2 amended: for every team size G ≥ 2 and every N ≥ 1 sequential join
attempts to one company, only the first succeeds: the store ends as exactly
user 1 plus team 1 with leader = user 1 (the 1st joiner) and its single
membership row.  Every later join creates its team with status "filling"
while team 1 is still "filling", violates the partial unique filling index
(the engine never updates any team's status), and the whole transaction
rolls back.  So the leader of team k is the k-th joiner only for k = 1, and
no team ever accumulates G members. -/
theorem stuck_after_first_join (G N : Nat) (hG : 2 ≤ G) (hN : 1 ≤ N) :
    simulateChecked G N = stuckDB G := by
  induction N with
  | zero => omega
  | succ j ih =>
    rw [simulateChecked_succ]
    by_cases hj : 1 ≤ j
    · rw [ih hj]
      simp only [createUserCheckedRun, createUserChecked_stuck G (j + 1) hG (by omega)]
    · have hj0 : j = 0 := by omega
      subst hj0
      rw [show simulateChecked G 0 = initDB G from rfl]
      simp only [createUserCheckedRun, createUserChecked_first G hG]

/-- Witness for the amended C2 at G = 2, N = 3. -/
theorem stuck_after_first_join_witness :
    simulateChecked 2 3 = stuckDB 2 :=
  stuck_after_first_join 2 3 (by norm_num) (by norm_num)

/-- C3 counterexample, over the constraint-enforcing store: with G = 4 and
users A..E (= 1..5) joining in order, B (user 2) is not a member of team 1
and no team 5 exists for E to lead; B's join already fails — its leadership
team insert (team 2, status "filling") hits the partial unique filling index
and the error propagates, rolling the transaction back. -/
theorem scenario_g4_second_join_aborts :
    isMemberOfTeam (simulateChecked 4 5) 0 1 2 = false ∧
    leaderOfTeam (simulateChecked 4 5) 0 5 = none ∧
    createUserChecked (simulateChecked 4 1) (mkUser 2) = .error (.db .uniqueViolation) :=
  ⟨by decide, by decide, rfl⟩

/-- C3 amended: with G = 4 and users A,B,C,D,E joining company X in order,
only A's join succeeds: team 1 is created with leader A and A as sole
member; the joins of B, C, D and E all abort on the filling-index conflict
and roll back, so no other user, team or membership row exists. -/
theorem scenario_g4_checked :
    simulateChecked 4 5 = stuckDB 4 := by decide
